import Mathlib

/-!
Shallow embedding of the MMIO 16550 UART driver (src/src/lib.rs).

MMIO is modelled by a trace of register-access events: every volatile write
appends a write event and every volatile read appends a read event carrying
the value the hardware returned.  The hardware itself is a `Device`: a
function from the access history so far and the address read to the byte the
read returns (an arbitrary such function, so quantifying over all devices
covers every possible sequence of LINE_STATUS / DATA values).  Each driver
operation is translated to a state-passing function on traces; the bounded
`for _ in 0..LOOP_MAX` loops become structural recursion on a fuel argument
equal to the remaining iterations.
-/

namespace Uart16550

/-- One volatile register access: a write of a byte value to an absolute
address, or a read that returned a byte value from an absolute address. -/
inductive Event where
  | wr (addr : Nat) (val : Nat)
  | rd (addr : Nat) (val : Nat)
deriving DecidableEq

/-- The history of register accesses, oldest first. -/
abbrev Trace := List Event

/-- The hardware: given the accesses performed so far and the address being
read, the byte the read returns.  Writes are only recorded in the trace. -/
structure Device where
  respond : Trace → Nat → Nat

/-- `const REG_TOTAL_SIZE: usize = 8` -/
def REG_TOTAL_SIZE : Nat := 8

/-- `const REG_DATA: usize = 0` -/
def REG_DATA : Nat := 0

/-- `const REG_DIVISOR_LSB: usize = 0` -/
def REG_DIVISOR_LSB : Nat := 0

/-- `const REG_DIVISOR_MSB: usize = 1` -/
def REG_DIVISOR_MSB : Nat := 1

/-- `const REG_IRQ_EN: usize = 1` -/
def REG_IRQ_EN : Nat := 1

/-- `const REG_FIFO_CONTROL: usize = 2` -/
def REG_FIFO_CONTROL : Nat := 2

/-- `const REG_LINE_CONTROL: usize = 3` -/
def REG_LINE_CONTROL : Nat := 3

/-- `const REG_MODEM_CONTROL: usize = 4` -/
def REG_MODEM_CONTROL : Nat := 4

/-- `const REG_LINE_STATUS: usize = 5` -/
def REG_LINE_STATUS : Nat := 5

/-- `const LINE_CONTROL_DLAB: u8 = 1 << 7` -/
def LINE_CONTROL_DLAB : Nat := 1 <<< 7

/-- `const LINE_STATUS_DR: u8 = 1 << 0` -/
def LINE_STATUS_DR : Nat := 1 <<< 0

/-- `const LINE_STATUS_THRE: u8 = 1 << 5` -/
def LINE_STATUS_THRE : Nat := 1 <<< 5

/-- `const LOOP_MAX: usize = 1000` -/
def LOOP_MAX : Nat := 1000

/-- `pub enum Fault { TxNotEmpty, DataNotReady }` -/
inductive Fault where
  | TxNotEmpty
  | DataNotReady
deriving DecidableEq

/-- `pub struct UART { base_addr: usize }` -/
structure UART where
  base_addr : Nat
deriving DecidableEq

/-- `fn write_reg(&self, reg: usize, val: u8)`: volatile write of a byte to
`base_addr + reg`, recorded as one event on the trace. -/
def UART.write_reg (u : UART) (t : Trace) (reg : Nat) (val : Nat) : Trace :=
  t ++ [Event.wr (u.base_addr + reg) (val % 256)]

/-- `fn read_reg(&self, reg: usize) -> u8`: volatile read of a byte from
`base_addr + reg`; the device decides the value, the event is recorded. -/
def UART.read_reg (u : UART) (d : Device) (t : Trace) (reg : Nat) : Nat × Trace :=
  let v := d.respond t (u.base_addr + reg) % 256
  (v, t ++ [Event.rd (u.base_addr + reg) v])

/-- `pub fn new(base_addr: usize) -> Result<Self, Fault>`: the 8-n-1
initialization sequence, translated write for write in source order. -/
def UART.new (base_addr : Nat) (t : Trace) : Except Fault UART × Trace :=
  let uart : UART := { base_addr := base_addr }
  let t := uart.write_reg t REG_IRQ_EN 0
  let t := uart.write_reg t REG_LINE_CONTROL LINE_CONTROL_DLAB
  let t := uart.write_reg t REG_DIVISOR_LSB 3
  let t := uart.write_reg t REG_DIVISOR_MSB 0
  let t := uart.write_reg t REG_LINE_CONTROL 3
  let t := uart.write_reg t REG_FIFO_CONTROL 0xc7
  let t := uart.write_reg t REG_MODEM_CONTROL 0xb
  let t := uart.write_reg t REG_IRQ_EN 1
  (Except.ok uart, t)

/-- `pub fn size(&self) -> usize`: pure, touches no register. -/
def UART.size (u : UART) (t : Trace) : Nat × Trace :=
  (REG_TOTAL_SIZE, t)

/-- `fn is_transmit_empty(&self) -> bool`: one LINE_STATUS read, tests THRE. -/
def UART.is_transmit_empty (u : UART) (d : Device) (t : Trace) : Bool × Trace :=
  let p := u.read_reg d t REG_LINE_STATUS
  ((p.1 &&& LINE_STATUS_THRE) != 0, p.2)

/-- `fn is_data_ready(&self) -> bool`: one LINE_STATUS read, tests DR. -/
def UART.is_data_ready (u : UART) (d : Device) (t : Trace) : Bool × Trace :=
  let p := u.read_reg d t REG_LINE_STATUS
  ((p.1 &&& LINE_STATUS_DR) != 0, p.2)

/-- Body of `send_byte`'s `for _ in 0..LOOP_MAX` loop, fuel = iterations left. -/
def UART.sendLoop (u : UART) (d : Device) (to_send : Nat) :
    Nat → Trace → Except Fault Unit × Trace
  | 0, t => (Except.error Fault.TxNotEmpty, t)
  | n + 1, t =>
    let p := u.is_transmit_empty d t
    if p.1 then (Except.ok (), u.write_reg p.2 REG_DATA to_send)
    else u.sendLoop d to_send n p.2

/-- `pub fn send_byte(&self, to_send: u8) -> Result<(), Fault>` -/
def UART.send_byte (u : UART) (d : Device) (to_send : Nat) (t : Trace) :
    Except Fault Unit × Trace :=
  u.sendLoop d to_send LOOP_MAX t

/-- Body of `read_byte`'s `for _ in 0..LOOP_MAX` loop, fuel = iterations left. -/
def UART.readLoop (u : UART) (d : Device) :
    Nat → Trace → Except Fault Nat × Trace
  | 0, t => (Except.error Fault.DataNotReady, t)
  | n + 1, t =>
    let p := u.is_data_ready d t
    if p.1 then
      let q := u.read_reg d p.2 REG_DATA
      (Except.ok q.1, q.2)
    else u.readLoop d n p.2

/-- `pub fn read_byte(&self) -> Result<u8, Fault>` -/
def UART.read_byte (u : UART) (d : Device) (t : Trace) : Except Fault Nat × Trace :=
  u.readLoop d LOOP_MAX t

/-- Trace extension caused by one poll of LINE_STATUS. -/
def pollOnce (u : UART) (d : Device) (t : Trace) : Trace :=
  t ++ [Event.rd (u.base_addr + REG_LINE_STATUS)
          (d.respond t (u.base_addr + REG_LINE_STATUS) % 256)]

/-- Trace after `i` polls of LINE_STATUS starting from trace `t`. -/
def pollTrace (u : UART) (d : Device) : Nat → Trace → Trace
  | 0, t => t
  | i + 1, t => pollTrace u d i (pollOnce u d t)

/-- The read events produced by `i` polls of LINE_STATUS starting from `t`. -/
def pollEvents (u : UART) (d : Device) : Nat → Trace → List Event
  | 0, _ => []
  | i + 1, t =>
    Event.rd (u.base_addr + REG_LINE_STATUS)
        (d.respond t (u.base_addr + REG_LINE_STATUS) % 256) ::
      pollEvents u d i (pollOnce u d t)

/-- LINE_STATUS byte the device returns on poll `i + 1` (after `i` polls). -/
def statusAt (u : UART) (d : Device) (t : Trace) (i : Nat) : Nat :=
  d.respond (pollTrace u d i t) (u.base_addr + REG_LINE_STATUS) % 256

/-- THRE bit as observed on poll `i + 1`. -/
def threAt (u : UART) (d : Device) (t : Trace) (i : Nat) : Bool :=
  (statusAt u d t i &&& LINE_STATUS_THRE) != 0

/-- DR bit as observed on poll `i + 1`. -/
def drAt (u : UART) (d : Device) (t : Trace) (i : Nat) : Bool :=
  (statusAt u d t i &&& LINE_STATUS_DR) != 0

/-- Byte the device returns for a DATA read performed right after `k` polls. -/
def dataAt (u : UART) (d : Device) (t : Trace) (k : Nat) : Nat :=
  d.respond (pollTrace u d k t) (u.base_addr + REG_DATA) % 256

/-- Event is a read of this device's LINE_STATUS register. -/
def isStatusRead (u : UART) : Event → Bool
  | Event.rd a _ => a == u.base_addr + REG_LINE_STATUS
  | Event.wr _ _ => false

/-- Event is a register write. -/
def isWrite : Event → Bool
  | Event.wr _ _ => true
  | Event.rd _ _ => false

/-- Address an event touches. -/
def eventAddr : Event → Nat
  | Event.wr a _ => a
  | Event.rd a _ => a

/-- Event lies inside the device's 8-byte register window. -/
def inWindow (u : UART) (e : Event) : Bool :=
  decide (u.base_addr ≤ eventAddr e) &&
    decide (eventAddr e < u.base_addr + REG_TOTAL_SIZE)

/-- A device returning the same byte on every read, for concrete test runs. -/
def devAll (v : Nat) : Device :=
  { respond := fun _ _ => v }

/-- One iteration of the send loop, phrased through the poll abbreviations. -/
theorem sendLoop_succ (u : UART) (d : Device) (x n : Nat) (t : Trace) :
    u.sendLoop d x (n + 1) t =
      if threAt u d t 0 then
        (Except.ok (), u.write_reg (pollOnce u d t) REG_DATA x)
      else u.sendLoop d x n (pollOnce u d t) := rfl

/-- One iteration of the receive loop, phrased through the poll abbreviations. -/
theorem readLoop_succ (u : UART) (d : Device) (n : Nat) (t : Trace) :
    u.readLoop d (n + 1) t =
      if drAt u d t 0 then
        (Except.ok (dataAt u d t 1),
          pollOnce u d t ++ [Event.rd (u.base_addr + REG_DATA) (dataAt u d t 1)])
      else u.readLoop d n (pollOnce u d t) := rfl

/-- Polling only appends: the poll trace is the old trace plus the poll events. -/
theorem pollTrace_eq (u : UART) (d : Device) :
    ∀ i t, pollTrace u d i t = t ++ pollEvents u d i t := by
  intro i
  induction i with
  | zero => intro t; simp [pollTrace, pollEvents]
  | succ j ih =>
    intro t
    show pollTrace u d j (pollOnce u d t) = _
    rw [ih (pollOnce u d t)]
    simp [pollOnce, pollEvents]

/-- `i` polls produce exactly `i` read events. -/
theorem pollEvents_length (u : UART) (d : Device) :
    ∀ i t, (pollEvents u d i t).length = i := by
  intro i
  induction i with
  | zero => intro t; rfl
  | succ j ih => intro t; simp [pollEvents, ih (pollOnce u d t)]

/-- Every poll event is a read of this device's LINE_STATUS register. -/
theorem pollEvents_status (u : UART) (d : Device) :
    ∀ i t, (pollEvents u d i t).all (isStatusRead u) = true := by
  intro i
  induction i with
  | zero => intro t; rfl
  | succ j ih => intro t; simp [pollEvents, isStatusRead, ih (pollOnce u d t)]

/-- On a constant-responding device every poll observes that constant byte. -/
theorem statusAt_devAll (u : UART) (v : Nat) (t : Trace) (i : Nat) :
    statusAt u (devAll v) t i = v % 256 := by
  simp [statusAt, devAll]

/-- If the THRE bit first reads set on poll `k ≤ n`, the send loop does `k`
polls, writes the byte to DATA once, and succeeds. -/
theorem sendLoop_first_set (u : UART) (d : Device) (x : Nat) :
    ∀ k n t, 1 ≤ k → k ≤ n →
      (∀ i, i + 1 < k → threAt u d t i = false) →
      threAt u d t (k - 1) = true →
      u.sendLoop d x n t =
        (Except.ok (),
          pollTrace u d k t ++ [Event.wr (u.base_addr + REG_DATA) (x % 256)]) := by
  intro k
  induction k with
  | zero => intro n t h1; omega
  | succ j ih =>
    intro n t _ h2 hclear hset
    cases n with
    | zero => omega
    | succ m =>
      rw [sendLoop_succ]
      cases j with
      | zero =>
        rw [hset]
        rfl
      | succ i =>
        have h0 : threAt u d t 0 = false := hclear 0 (by omega)
        rw [h0]
        simp only [Bool.false_eq_true, if_false]
        exact ih m (pollOnce u d t) (by omega) (by omega)
          (fun a ha => hclear (a + 1) (by omega)) hset

/-- If the THRE bit reads clear on all `n` polls, the send loop exhausts its
fuel, reports the transmit fault and performs no write. -/
theorem sendLoop_all_clear (u : UART) (d : Device) (x : Nat) :
    ∀ n t, (∀ i, i < n → threAt u d t i = false) →
      u.sendLoop d x n t = (Except.error Fault.TxNotEmpty, pollTrace u d n t) := by
  intro n
  induction n with
  | zero => intro t _; rfl
  | succ m ih =>
    intro t hclear
    rw [sendLoop_succ, hclear 0 (by omega)]
    simp only [Bool.false_eq_true, if_false]
    exact ih (pollOnce u d t) (fun a ha => hclear (a + 1) (by omega))

/-- If the DR bit first reads set on poll `k ≤ n`, the receive loop does `k`
polls, reads DATA once, and returns the byte the device offered there. -/
theorem readLoop_first_set (u : UART) (d : Device) :
    ∀ k n t, 1 ≤ k → k ≤ n →
      (∀ i, i + 1 < k → drAt u d t i = false) →
      drAt u d t (k - 1) = true →
      u.readLoop d n t =
        (Except.ok (dataAt u d t k),
          pollTrace u d k t ++ [Event.rd (u.base_addr + REG_DATA) (dataAt u d t k)]) := by
  intro k
  induction k with
  | zero => intro n t h1; omega
  | succ j ih =>
    intro n t _ h2 hclear hset
    cases n with
    | zero => omega
    | succ m =>
      rw [readLoop_succ]
      cases j with
      | zero =>
        rw [hset]
        rfl
      | succ i =>
        have h0 : drAt u d t 0 = false := hclear 0 (by omega)
        rw [h0]
        simp only [Bool.false_eq_true, if_false]
        exact ih m (pollOnce u d t) (by omega) (by omega)
          (fun a ha => hclear (a + 1) (by omega)) hset

/-- If the DR bit reads clear on all `n` polls, the receive loop exhausts its
fuel, reports the receive fault and never touches DATA. -/
theorem readLoop_all_clear (u : UART) (d : Device) :
    ∀ n t, (∀ i, i < n → drAt u d t i = false) →
      u.readLoop d n t = (Except.error Fault.DataNotReady, pollTrace u d n t) := by
  intro n
  induction n with
  | zero => intro t _; rfl
  | succ m ih =>
    intro t hclear
    rw [readLoop_succ, hclear 0 (by omega)]
    simp only [Bool.false_eq_true, if_false]
    exact ih (pollOnce u d t) (fun a ha => hclear (a + 1) (by omega))

/-- The exact event sequence `UART.new` appends to any starting trace. -/
theorem new_trace (base : Nat) (t : Trace) :
    (UART.new base t).2 = t ++
      [Event.wr (base + 1) 0, Event.wr (base + 3) 128, Event.wr (base + 0) 3,
       Event.wr (base + 1) 0, Event.wr (base + 3) 3, Event.wr (base + 2) 0xc7,
       Event.wr (base + 4) 0xb, Event.wr (base + 1) 1] := by
  simp [UART.new, UART.write_reg, REG_IRQ_EN, REG_LINE_CONTROL, REG_DIVISOR_LSB,
    REG_DIVISOR_MSB, REG_FIFO_CONTROL, REG_MODEM_CONTROL, LINE_CONTROL_DLAB]

/-- A read at an offset below 8 lands in the register window. -/
theorem inWindow_rd (u : UART) (r v : Nat) (hr : r < 8) :
    inWindow u (Event.rd (u.base_addr + r) v) = true := by
  simp only [inWindow, eventAddr, REG_TOTAL_SIZE, Bool.and_eq_true, decide_eq_true_eq]
  omega

/-- A write at an offset below 8 lands in the register window. -/
theorem inWindow_wr (u : UART) (r v : Nat) (hr : r < 8) :
    inWindow u (Event.wr (u.base_addr + r) v) = true := by
  simp only [inWindow, eventAddr, REG_TOTAL_SIZE, Bool.and_eq_true, decide_eq_true_eq]
  omega

/-- Whatever the device answers, the send loop only appends accesses inside
the register window. -/
theorem sendLoop_frame (u : UART) (d : Device) (x : Nat) :
    ∀ n t, ∃ l, (u.sendLoop d x n t).2 = t ++ l ∧ l.all (inWindow u) = true := by
  intro n
  induction n with
  | zero => intro t; exact ⟨[], by simp [UART.sendLoop], rfl⟩
  | succ m ih =>
    intro t
    rw [sendLoop_succ]
    cases hb : threAt u d t 0 with
    | true =>
      simp only [if_true]
      refine ⟨[Event.rd (u.base_addr + REG_LINE_STATUS)
                 (d.respond t (u.base_addr + REG_LINE_STATUS) % 256),
               Event.wr (u.base_addr + REG_DATA) (x % 256)], ?_, ?_⟩
      · simp [UART.write_reg, pollOnce]
      · have e1 := inWindow_rd u REG_LINE_STATUS
          (d.respond t (u.base_addr + REG_LINE_STATUS) % 256) (by decide)
        have e2 := inWindow_wr u REG_DATA (x % 256) (by decide)
        simp [e1, e2]
    | false =>
      simp only [Bool.false_eq_true, if_false]
      obtain ⟨l, hl, ha⟩ := ih (pollOnce u d t)
      refine ⟨Event.rd (u.base_addr + REG_LINE_STATUS)
                (d.respond t (u.base_addr + REG_LINE_STATUS) % 256) :: l, ?_, ?_⟩
      · rw [hl]; simp [pollOnce]
      · have e1 := inWindow_rd u REG_LINE_STATUS
          (d.respond t (u.base_addr + REG_LINE_STATUS) % 256) (by decide)
        simp [e1, ha]

/-- Whatever the device answers, the receive loop only appends accesses
inside the register window. -/
theorem readLoop_frame (u : UART) (d : Device) :
    ∀ n t, ∃ l, (u.readLoop d n t).2 = t ++ l ∧ l.all (inWindow u) = true := by
  intro n
  induction n with
  | zero => intro t; exact ⟨[], by simp [UART.readLoop], rfl⟩
  | succ m ih =>
    intro t
    rw [readLoop_succ]
    cases hb : drAt u d t 0 with
    | true =>
      simp only [if_true]
      refine ⟨[Event.rd (u.base_addr + REG_LINE_STATUS)
                 (d.respond t (u.base_addr + REG_LINE_STATUS) % 256),
               Event.rd (u.base_addr + REG_DATA) (dataAt u d t 1)], ?_, ?_⟩
      · simp [pollOnce]
      · have e1 := inWindow_rd u REG_LINE_STATUS
          (d.respond t (u.base_addr + REG_LINE_STATUS) % 256) (by decide)
        have e2 := inWindow_rd u REG_DATA (dataAt u d t 1) (by decide)
        simp [e1, e2]
    | false =>
      simp only [Bool.false_eq_true, if_false]
      obtain ⟨l, hl, ha⟩ := ih (pollOnce u d t)
      refine ⟨Event.rd (u.base_addr + REG_LINE_STATUS)
                (d.respond t (u.base_addr + REG_LINE_STATUS) % 256) :: l, ?_, ?_⟩
      · rw [hl]; simp [pollOnce]
      · have e1 := inWindow_rd u REG_LINE_STATUS
          (d.respond t (u.base_addr + REG_LINE_STATUS) % 256) (by decide)
        simp [e1, ha]

/-- The send loop appends at most fuel + 1 events. -/
theorem sendLoop_le (u : UART) (d : Device) (x : Nat) :
    ∀ n t, (u.sendLoop d x n t).2.length ≤ t.length + n + 1 := by
  intro n
  induction n with
  | zero => intro t; show t.length ≤ t.length + 0 + 1; omega
  | succ m ih =>
    intro t
    rw [sendLoop_succ]
    cases hb : threAt u d t 0 with
    | true =>
      simp only [if_true]
      simp [UART.write_reg, pollOnce]
    | false =>
      simp only [Bool.false_eq_true, if_false]
      have h := ih (pollOnce u d t)
      have hp : (pollOnce u d t).length = t.length + 1 := by simp [pollOnce]
      rw [hp] at h
      omega

/-- The receive loop appends at most fuel + 1 events. -/
theorem readLoop_le (u : UART) (d : Device) :
    ∀ n t, (u.readLoop d n t).2.length ≤ t.length + n + 1 := by
  intro n
  induction n with
  | zero => intro t; show t.length ≤ t.length + 0 + 1; omega
  | succ m ih =>
    intro t
    rw [readLoop_succ]
    cases hb : drAt u d t 0 with
    | true =>
      simp only [if_true]
      simp [pollOnce]
    | false =>
      simp only [Bool.false_eq_true, if_false]
      have h := ih (pollOnce u d t)
      have hp : (pollOnce u d t).length = t.length + 1 := by simp [pollOnce]
      rw [hp] at h
      omega

/-- The send loop returns either success or the transmit fault. -/
theorem sendLoop_result (u : UART) (d : Device) (x : Nat) :
    ∀ n t, (u.sendLoop d x n t).1 = Except.ok () ∨
      (u.sendLoop d x n t).1 = Except.error Fault.TxNotEmpty := by
  intro n
  induction n with
  | zero => intro t; exact Or.inr rfl
  | succ m ih =>
    intro t
    rw [sendLoop_succ]
    cases hb : threAt u d t 0 with
    | true => exact Or.inl rfl
    | false =>
      simp only [Bool.false_eq_true, if_false]
      exact ih (pollOnce u d t)

/-- The receive loop returns either some byte or the receive fault. -/
theorem readLoop_result (u : UART) (d : Device) :
    ∀ n t, (∃ v, (u.readLoop d n t).1 = Except.ok v) ∨
      (u.readLoop d n t).1 = Except.error Fault.DataNotReady := by
  intro n
  induction n with
  | zero => intro t; exact Or.inr rfl
  | succ m ih =>
    intro t
    rw [readLoop_succ]
    cases hb : drAt u d t 0 with
    | true => exact Or.inl ⟨dataAt u d t 1, rfl⟩
    | false =>
      simp only [Bool.false_eq_true, if_false]
      exact ih (pollOnce u d t)

/-- C1: for every base address, `new(base_address)` performs exactly this
register-write sequence, in this order and no others: IRQ_ENABLE=0,
LINE_CONTROL=0x80 (DLAB set), DIVISOR_LSB=3, DIVISOR_MSB=0,
LINE_CONTROL=0x03, FIFO_CONTROL=0xC7, MODEM_CONTROL=0x0B, IRQ_ENABLE=1,
each at its named register offset. -/
theorem uart_new_write_sequence (base : Nat) (t : Trace) :
    (UART.new base t).2 = t ++
      [Event.wr (base + REG_IRQ_EN) 0, Event.wr (base + REG_LINE_CONTROL) 0x80,
       Event.wr (base + REG_DIVISOR_LSB) 3, Event.wr (base + REG_DIVISOR_MSB) 0,
       Event.wr (base + REG_LINE_CONTROL) 0x03, Event.wr (base + REG_FIFO_CONTROL) 0xc7,
       Event.wr (base + REG_MODEM_CONTROL) 0x0b, Event.wr (base + REG_IRQ_EN) 1] :=
  new_trace base t

/-- C2: if the THRE bit of LINE_STATUS is first observed set on poll `k`
with `1 ≤ k ≤ LOOP_MAX`, then `send_byte x` polls LINE_STATUS exactly `k`
times, writes `x` to DATA exactly once and returns success immediately. -/
theorem uart_send_byte_success_polls (u : UART) (d : Device) (x : Nat) (t : Trace)
    (k : Nat) (hx : x < 256) (hk1 : 1 ≤ k) (hk2 : k ≤ LOOP_MAX)
    (hclear : ∀ i, i + 1 < k → threAt u d t i = false)
    (hset : threAt u d t (k - 1) = true) :
    u.send_byte d x t =
      (Except.ok (), (t ++ pollEvents u d k t) ++ [Event.wr (u.base_addr + REG_DATA) x]) ∧
    (pollEvents u d k t).length = k ∧
    (pollEvents u d k t).all (isStatusRead u) = true := by
  refine ⟨?_, pollEvents_length u d k t, pollEvents_status u d k t⟩
  have h := sendLoop_first_set u d x k LOOP_MAX t hk1 hk2 hclear hset
  rw [pollTrace_eq, Nat.mod_eq_of_lt hx] at h
  exact h

/-- Witness for C2: a device whose LINE_STATUS always reads 0xFF reports THRE
on the first poll, so `send_byte 65` polls once, writes 65 and succeeds. -/
theorem uart_send_byte_success_polls_witness :
    ((65 : Nat) < 256 ∧ 1 ≤ 1 ∧ 1 ≤ LOOP_MAX ∧
      (∀ i, i + 1 < 1 → threAt ⟨16⟩ (devAll 255) [] i = false) ∧
      threAt ⟨16⟩ (devAll 255) [] (1 - 1) = true) ∧
    (UART.send_byte ⟨16⟩ (devAll 255) 65 [] =
        (Except.ok (),
          ([] ++ pollEvents ⟨16⟩ (devAll 255) 1 []) ++ [Event.wr ((16 : Nat) + REG_DATA) 65]) ∧
      (pollEvents ⟨16⟩ (devAll 255) 1 []).length = 1 ∧
      (pollEvents ⟨16⟩ (devAll 255) 1 []).all (isStatusRead ⟨16⟩) = true) :=
  ⟨⟨by decide, by decide, by decide, fun i h => absurd h (by omega), by decide⟩,
    uart_send_byte_success_polls ⟨16⟩ (devAll 255) 65 [] 1 (by decide) (by decide)
      (by decide) (fun i h => absurd h (by omega)) (by decide)⟩

/-- C3: if every poll of LINE_STATUS observes THRE clear, `send_byte x`
returns the transmit-timeout fault after exactly `LOOP_MAX = 1000` polls and
never writes DATA (all appended events are LINE_STATUS reads). -/
theorem uart_send_byte_timeout (u : UART) (d : Device) (x : Nat) (t : Trace)
    (hclear : ∀ i, i < LOOP_MAX → threAt u d t i = false) :
    u.send_byte d x t = (Except.error Fault.TxNotEmpty, t ++ pollEvents u d LOOP_MAX t) ∧
    (pollEvents u d LOOP_MAX t).length = LOOP_MAX ∧
    (pollEvents u d LOOP_MAX t).all (isStatusRead u) = true := by
  refine ⟨?_, pollEvents_length u d LOOP_MAX t, pollEvents_status u d LOOP_MAX t⟩
  have h := sendLoop_all_clear u d x LOOP_MAX t hclear
  rw [pollTrace_eq] at h
  exact h

/-- Witness for C3: a device whose LINE_STATUS always reads 0 never reports
THRE, so `send_byte 65` times out after `LOOP_MAX` polls with no write. -/
theorem uart_send_byte_timeout_witness :
    (∀ i, i < LOOP_MAX → threAt ⟨16⟩ (devAll 0) [] i = false) ∧
    (UART.send_byte ⟨16⟩ (devAll 0) 65 [] =
        (Except.error Fault.TxNotEmpty, [] ++ pollEvents ⟨16⟩ (devAll 0) LOOP_MAX []) ∧
      (pollEvents ⟨16⟩ (devAll 0) LOOP_MAX []).length = LOOP_MAX ∧
      (pollEvents ⟨16⟩ (devAll 0) LOOP_MAX []).all (isStatusRead ⟨16⟩) = true) :=
  ⟨fun i _ => by simp [threAt, statusAt_devAll, LINE_STATUS_THRE],
    uart_send_byte_timeout ⟨16⟩ (devAll 0) 65 []
      (fun i _ => by simp [threAt, statusAt_devAll, LINE_STATUS_THRE])⟩

/-- C4: if the DR bit of LINE_STATUS is first observed set on poll `k` with
`1 ≤ k ≤ LOOP_MAX`, then `read_byte` polls LINE_STATUS exactly `k` times,
reads DATA exactly once and returns success carrying the byte the device
held at DATA at that moment. -/
theorem uart_read_byte_success_polls (u : UART) (d : Device) (t : Trace) (k : Nat)
    (hk1 : 1 ≤ k) (hk2 : k ≤ LOOP_MAX)
    (hclear : ∀ i, i + 1 < k → drAt u d t i = false)
    (hset : drAt u d t (k - 1) = true) :
    u.read_byte d t =
      (Except.ok (dataAt u d t k),
        (t ++ pollEvents u d k t) ++ [Event.rd (u.base_addr + REG_DATA) (dataAt u d t k)]) ∧
    (pollEvents u d k t).length = k ∧
    (pollEvents u d k t).all (isStatusRead u) = true := by
  refine ⟨?_, pollEvents_length u d k t, pollEvents_status u d k t⟩
  have h := readLoop_first_set u d k LOOP_MAX t hk1 hk2 hclear hset
  rw [pollTrace_eq] at h
  exact h

/-- Witness for C4: a device whose every read returns 0xFF reports DR on the
first poll, so `read_byte` polls once, reads DATA once and returns 0xFF. -/
theorem uart_read_byte_success_polls_witness :
    (1 ≤ 1 ∧ 1 ≤ LOOP_MAX ∧
      (∀ i, i + 1 < 1 → drAt ⟨16⟩ (devAll 255) [] i = false) ∧
      drAt ⟨16⟩ (devAll 255) [] (1 - 1) = true) ∧
    (UART.read_byte ⟨16⟩ (devAll 255) [] =
        (Except.ok (dataAt ⟨16⟩ (devAll 255) [] 1),
          ([] ++ pollEvents ⟨16⟩ (devAll 255) 1 []) ++
            [Event.rd ((16 : Nat) + REG_DATA) (dataAt ⟨16⟩ (devAll 255) [] 1)]) ∧
      (pollEvents ⟨16⟩ (devAll 255) 1 []).length = 1 ∧
      (pollEvents ⟨16⟩ (devAll 255) 1 []).all (isStatusRead ⟨16⟩) = true) :=
  ⟨⟨by decide, by decide, fun i h => absurd h (by omega), by decide⟩,
    uart_read_byte_success_polls ⟨16⟩ (devAll 255) [] 1 (by decide) (by decide)
      (fun i h => absurd h (by omega)) (by decide)⟩

/-- C5: if every poll of LINE_STATUS observes DR clear, `read_byte` returns
the receive-timeout fault and DATA is never read (all appended events are
LINE_STATUS reads). -/
theorem uart_read_byte_timeout (u : UART) (d : Device) (t : Trace)
    (hclear : ∀ i, i < LOOP_MAX → drAt u d t i = false) :
    u.read_byte d t = (Except.error Fault.DataNotReady, t ++ pollEvents u d LOOP_MAX t) ∧
    (pollEvents u d LOOP_MAX t).length = LOOP_MAX ∧
    (pollEvents u d LOOP_MAX t).all (isStatusRead u) = true := by
  refine ⟨?_, pollEvents_length u d LOOP_MAX t, pollEvents_status u d LOOP_MAX t⟩
  have h := readLoop_all_clear u d LOOP_MAX t hclear
  rw [pollTrace_eq] at h
  exact h

/-- Witness for C5: a device whose LINE_STATUS always reads 0x20 (THRE set,
DR clear) never reports data ready, so `read_byte` times out, DATA unread. -/
theorem uart_read_byte_timeout_witness :
    (∀ i, i < LOOP_MAX → drAt ⟨16⟩ (devAll 32) [] i = false) ∧
    (UART.read_byte ⟨16⟩ (devAll 32) [] =
        (Except.error Fault.DataNotReady, [] ++ pollEvents ⟨16⟩ (devAll 32) LOOP_MAX []) ∧
      (pollEvents ⟨16⟩ (devAll 32) LOOP_MAX []).length = LOOP_MAX ∧
      (pollEvents ⟨16⟩ (devAll 32) LOOP_MAX []).all (isStatusRead ⟨16⟩) = true) :=
  ⟨fun i _ => by simp [drAt, statusAt_devAll, LINE_STATUS_DR],
    uart_read_byte_timeout ⟨16⟩ (devAll 32) []
      (fun i _ => by simp [drAt, statusAt_devAll, LINE_STATUS_DR])⟩

/-- C6: for every base address, `new(base_address)` returns success — the
error alternative of its result type is never produced. -/
theorem uart_new_always_ok (base : Nat) (t : Trace) :
    (UART.new base t).1 = Except.ok { base_addr := base } := rfl

/-- C7: the register-window-size query returns the constant 8 on every call,
for every device state, leaves the trace untouched (no register access), and
repeated calls yield the same value. -/
theorem uart_size_constant (u : UART) (t : Trace) :
    u.size t = (8, t) ∧ (u.size (u.size t).2).1 = (u.size t).1 :=
  ⟨rfl, rfl⟩

/-- C8: the base address is fixed at construction (`new base` returns a
handle holding exactly `base`) and every register access of every operation
— initialization, send, receive — stays inside the 8-byte window starting at
that base address; the size query touches no register at all. -/
theorem uart_window_invariant (base : Nat) (u : UART) (d : Device) (x : Nat) (t : Trace) :
    (UART.new base t).1 = Except.ok { base_addr := base } ∧
    ((UART.new base t).2.drop t.length).all (inWindow { base_addr := base }) = true ∧
    ((u.send_byte d x t).2.drop t.length).all (inWindow u) = true ∧
    ((u.read_byte d t).2.drop t.length).all (inWindow u) = true ∧
    (u.size t).2 = t := by
  refine ⟨rfl, ?_, ?_, ?_, rfl⟩
  · rw [new_trace, List.drop_left]
    simp only [List.all_cons, List.all_nil, inWindow, eventAddr, REG_TOTAL_SIZE,
      Bool.and_eq_true, decide_eq_true_eq, and_true]
    omega
  · obtain ⟨l, hl, ha⟩ := sendLoop_frame u d x LOOP_MAX t
    show ((u.sendLoop d x LOOP_MAX t).2.drop t.length).all (inWindow u) = true
    rw [hl, List.drop_left]
    exact ha
  · obtain ⟨l, hl, ha⟩ := readLoop_frame u d LOOP_MAX t
    show ((u.readLoop d LOOP_MAX t).2.drop t.length).all (inWindow u) = true
    rw [hl, List.drop_left]
    exact ha

/-- C9: `send_byte` and `read_byte` always terminate with either success or
their timeout fault, for every device behaviour, and each appends at most
`LOOP_MAX + 1` register accesses to the trace. -/
theorem uart_send_read_terminate (u : UART) (d : Device) (x : Nat) (t : Trace) :
    ((u.send_byte d x t).1 = Except.ok () ∨
      (u.send_byte d x t).1 = Except.error Fault.TxNotEmpty) ∧
    (u.send_byte d x t).2.length ≤ t.length + LOOP_MAX + 1 ∧
    ((∃ v, (u.read_byte d t).1 = Except.ok v) ∨
      (u.read_byte d t).1 = Except.error Fault.DataNotReady) ∧
    (u.read_byte d t).2.length ≤ t.length + LOOP_MAX + 1 :=
  ⟨sendLoop_result u d x LOOP_MAX t, sendLoop_le u d x LOOP_MAX t,
    readLoop_result u d LOOP_MAX t, readLoop_le u d LOOP_MAX t⟩

/-- C10: initialization performs register writes only — `new` appends no
read event to the trace, and the appended event sequence is the same
whatever came before (so it cannot depend on prior hardware state). -/
theorem uart_new_writes_only (base : Nat) (t s : Trace) :
    ((UART.new base t).2.drop t.length).all isWrite = true ∧
    (UART.new base t).2.drop t.length = (UART.new base s).2.drop s.length := by
  constructor
  · rw [new_trace, List.drop_left]
    rfl
  · rw [new_trace base t, new_trace base s, List.drop_left, List.drop_left]

end Uart16550
